import Mathlib

/-!
Verification of the PyPI rebuilder and the caching HTTP layer of oss-rebuild.

The Go code under `pkg/rebuild/pypi/rebuild.go` (the verdict classifier
`compareTwoFiles`, the phase executor `Rebuilder.Rebuild`, the comparison
entrypoint `Rebuilder.Compare`, the batch driver `RebuildMany` and the remote
delegate `RebuildRemote`) and `internal/http` (the `CachedClient`) is embedded
shallowly below.  External collaborators (the script executor, the asset
summarizer, the underlying HTTP transport, the generic `rebuild.RebuildMany`
and `rebuild.RebuildRemote`) are injected as function parameters, mirroring how
the Go code receives them as interfaces.
-/

namespace OSSRebuild

/-! ## String primitives (Go `strings` package semantics) -/

/-- Whether the first character list is a prefix of the second. -/
def isPrefixL : List Char → List Char → Bool
  | [], _ => true
  | _ :: _, [] => false
  | a :: p, b :: s => a == b && isPrefixL p s

/-- Whether `sub` occurs contiguously inside the second list. -/
def hasSubL (sub : List Char) : List Char → Bool
  | [] => isPrefixL sub []
  | c :: t => isPrefixL sub (c :: t) || hasSubL sub t

/-- Go `strings.Contains s sub`. -/
def strContains (s sub : String) : Bool := hasSubL sub.data s.data

/-- Go `strings.HasSuffix s suf`. -/
def strHasSuffix (s suf : String) : Bool := isPrefixL suf.data.reverse s.data.reverse

/-! ## Errors

Go errors built with `errors.New` / `errors.Errorf` carry a message; wrapping
with `errors.Wrap(err, ctx)` layers a context string on a cause, so a wrapped
error keeps the cause intact rather than concatenating text. -/

/-- A Go error value: a plain message, or a context wrapped around a cause. -/
inductive GoErr where
  | msg : String → GoErr
  | wrapped : String → GoErr → GoErr
deriving DecidableEq, Repr

/-! ## Content summaries and the verdict classifier -/

/-- Per-archive digest of the spec's data model: file paths with their content
hashes, plus the count of CRLF line endings.  The archive package that computes
it is an external collaborator. -/
structure ContentSummary where
  files : List (String × String)
  CRLFCount : Nat
deriving DecidableEq, Repr

/-- Modelled from the spec: `ContentSummary.Diff` (in `pkg/archive`, not among
the source files) computes the files present only in the receiver, the files
present in both summaries with differing content, and the files present only
in the argument. -/
def ContentSummary.Diff (up rb : ContentSummary) :
    List String × List String × List String :=
  ((up.files.filter (fun f => !(rb.files.any (fun g => g.1 == f.1)))).map (·.1),
   (up.files.filter (fun f => rb.files.any (fun g => g.1 == f.1 && g.2 != f.2))).map (·.1),
   (rb.files.filter (fun f => !(up.files.any (fun g => g.1 == f.1)))).map (·.1))

/-- The closed set of verdict sentinels declared at the top of
`pkg/rebuild/pypi/rebuild.go`. -/
inductive Verdict where
  | DSStore
  | LineEndings
  | MismatchedFiles
  | UpstreamOnly
  | RebuildOnly
  | WheelDiff
  | ContentDiff
deriving DecidableEq, Repr

/-- The message each verdict sentinel was constructed with (`errors.New`). -/
def Verdict.message : Verdict → String
  | .DSStore => ".DS_STORE file(s) found in upstream but not rebuild"
  | .LineEndings => "Excess CRLF line endings found in upstream"
  | .MismatchedFiles => "mismatched file(s) in upstream and rebuild"
  | .UpstreamOnly => "file(s) found in upstream but not rebuild"
  | .RebuildOnly => "file(s) found in rebuild but not upstream"
  | .WheelDiff => "wheel metadata mismatch"
  | .ContentDiff => "content differences found"

/-- Embedding of `compareTwoFiles` (pkg/rebuild/pypi/rebuild.go): classify the
diff of the upstream summary against the rebuild summary.  Returns the pair
(verdict, hard error), exactly as the Go function's two results. -/
def compareTwoFiles (csRB csUP : ContentSummary) : Option Verdict × Option GoErr :=
  let d := csUP.Diff csRB
  let upOnly := d.1
  let diffs := d.2.1
  let rbOnly := d.2.2
  let foundDSStore := upOnly.any (fun f => strHasSuffix f "/.DS_STORE")
  let onlyMetadataDiffs :=
    (upOnly.length == 0 && rbOnly.length == 0 && decide (diffs.length > 0)) &&
      diffs.all (fun f => strContains f ".dist-info/")
  if foundDSStore then (some .DSStore, none)
  else if decide (csRB.CRLFCount < csUP.CRLFCount) then (some .LineEndings, none)
  else if decide (upOnly.length > 0) && decide (rbOnly.length > 0) then
    (some .MismatchedFiles, none)
  else if decide (upOnly.length > 0) then (some .UpstreamOnly, none)
  else if decide (rbOnly.length > 0) then (some .RebuildOnly, none)
  else if onlyMetadataDiffs then (some .WheelDiff, none)
  else if decide (diffs.length > 0) then (some .ContentDiff, none)
  else (none, none)

/-! ## Claims about the verdict classifier -/

/-- C1: whenever some upstream-only path ends in the `.DS_STORE` marker,
`compareTwoFiles` returns the DS_Store verdict with no hard error; no
assumption is made on the CRLF counts, so the theorem covers in particular the
case where the upstream CRLF count exceeds the rebuild's (rule 1 beats
rule 2). -/
theorem compareTwoFiles_dsstore_first (csRB csUP : ContentSummary)
    (h : (csUP.Diff csRB).1.any (fun f => strHasSuffix f "/.DS_STORE") = true) :
    compareTwoFiles csRB csUP = (some Verdict.DSStore, none) := by
  unfold compareTwoFiles
  simp only [h, if_true]

/-- Witness for C1 at a concrete pair of summaries whose upstream CRLF count
(5) also exceeds the rebuild's (0). -/
theorem compareTwoFiles_dsstore_first_witness :
    compareTwoFiles ⟨[], 0⟩ ⟨[("x/.DS_STORE", "h1")], 5⟩ =
      (some Verdict.DSStore, none) :=
  compareTwoFiles_dsstore_first ⟨[], 0⟩ ⟨[("x/.DS_STORE", "h1")], 5⟩ (by decide)

/-- C2: when neither the DS_Store rule nor the CRLF rule applies, a non-empty
upstream-only set together with a non-empty rebuild-only set yields the
mismatched-files verdict (whose message contains "mismatch"); only
upstream-only non-empty yields the upstream-only verdict; only rebuild-only
non-empty yields the rebuild-only verdict.  In all cases the hard error is
nil. -/
theorem compareTwoFiles_missing_files (csRB csUP : ContentSummary)
    (hds : (csUP.Diff csRB).1.any (fun f => strHasSuffix f "/.DS_STORE") = false)
    (hcrlf : csUP.CRLFCount ≤ csRB.CRLFCount) :
    ((csUP.Diff csRB).1 ≠ [] → (csUP.Diff csRB).2.2 ≠ [] →
        compareTwoFiles csRB csUP = (some Verdict.MismatchedFiles, none) ∧
        ∃ s, Verdict.MismatchedFiles.message = "mismatch" ++ s) ∧
    ((csUP.Diff csRB).1 ≠ [] → (csUP.Diff csRB).2.2 = [] →
        compareTwoFiles csRB csUP = (some Verdict.UpstreamOnly, none)) ∧
    ((csUP.Diff csRB).1 = [] → (csUP.Diff csRB).2.2 ≠ [] →
        compareTwoFiles csRB csUP = (some Verdict.RebuildOnly, none)) := by
  refine ⟨fun h1 h2 => ⟨?_, "ed file(s) in upstream and rebuild", by decide⟩,
    fun h1 h2 => ?_, fun h1 h2 => ?_⟩ <;>
  · unfold compareTwoFiles
    simp [hds, Nat.not_lt_of_le hcrlf, h1, h2, List.length_pos]

/-- Witness for C2's mismatched-files branch: upstream has only "u", rebuild
has only "r", CRLF counts are equal, and no DS_Store marker appears. -/
theorem compareTwoFiles_missing_files_witness :
    compareTwoFiles ⟨[("r", "h")], 0⟩ ⟨[("u", "h")], 0⟩ =
        (some Verdict.MismatchedFiles, none) ∧
      ∃ s, Verdict.MismatchedFiles.message = "mismatch" ++ s :=
  (compareTwoFiles_missing_files ⟨[("r", "h")], 0⟩ ⟨[("u", "h")], 0⟩
    (by decide) (by decide)).1 (by decide) (by decide)

/-- C3: with empty upstream-only and rebuild-only sets, a non-empty diff set,
and the CRLF rule not applying, the verdict is wheel-metadata when every
differing path contains the `.dist-info/` marker, and generic
content-differences when some differing path does not. -/
theorem compareTwoFiles_metadata_diffs (csRB csUP : ContentSummary)
    (hup : (csUP.Diff csRB).1 = [])
    (hrb : (csUP.Diff csRB).2.2 = [])
    (hdiffs : (csUP.Diff csRB).2.1 ≠ [])
    (hcrlf : csUP.CRLFCount ≤ csRB.CRLFCount) :
    ((csUP.Diff csRB).2.1.all (fun f => strContains f ".dist-info/") = true →
        compareTwoFiles csRB csUP = (some Verdict.WheelDiff, none)) ∧
    ((csUP.Diff csRB).2.1.all (fun f => strContains f ".dist-info/") = false →
        compareTwoFiles csRB csUP = (some Verdict.ContentDiff, none)) := by
  constructor <;> intro hall <;>
  · unfold compareTwoFiles
    simp [hup, hrb, hall, Nat.not_lt_of_le hcrlf, List.length_pos, hdiffs]

/-- Witness for C3's metadata branch: the only differing path lies under a
`.dist-info/` directory, so the verdict is the wheel-metadata mismatch. -/
theorem compareTwoFiles_metadata_diffs_witness :
    compareTwoFiles ⟨[("pkg.dist-info/METADATA", "h1")], 0⟩
        ⟨[("pkg.dist-info/METADATA", "h2")], 0⟩ =
      (some Verdict.WheelDiff, none) :=
  (compareTwoFiles_metadata_diffs ⟨[("pkg.dist-info/METADATA", "h1")], 0⟩
    ⟨[("pkg.dist-info/METADATA", "h2")], 0⟩ (by decide) (by decide) (by decide)
    (by decide)).1 (by decide)

/-- C4: identical content summaries, meaning the diff produces no
upstream-only, no rebuild-only and no differing paths, and the upstream CRLF
count does not exceed the rebuild's, yield no verdict and no error. -/
theorem compareTwoFiles_identical (csRB csUP : ContentSummary)
    (hdiff : csUP.Diff csRB = ([], [], []))
    (hcrlf : csUP.CRLFCount ≤ csRB.CRLFCount) :
    compareTwoFiles csRB csUP = (none, none) := by
  unfold compareTwoFiles
  simp [hdiff, Nat.not_lt_of_le hcrlf]

/-- Witness for C4 at a concrete pair of equal summaries. -/
theorem compareTwoFiles_identical_witness :
    compareTwoFiles ⟨[("a", "h")], 3⟩ ⟨[("a", "h")], 3⟩ = (none, none) :=
  compareTwoFiles_identical ⟨[("a", "h")], 3⟩ ⟨[("a", "h")], 3⟩ (by decide)
    (by decide)

/-! ## The build executor (`Rebuilder.Rebuild`) -/

/-- The three opaque scripts of the spec's data model, in execution order. -/
structure Instructions where
  Source : String
  Deps : String
  Build : String
deriving DecidableEq, Repr

/-- A label for each of the three build phases. -/
inductive Phase where
  | source
  | deps
  | build
deriving DecidableEq, Repr

/-- Embedding of `Rebuilder.Rebuild` (pkg/rebuild/pypi/rebuild.go): run the
Source, Deps and Build scripts in that order through the injected executor
`exec` (standing for `rebuild.ExecuteScript` on the project filesystem root),
stopping at the first failure and wrapping it with the phase context.  The
second component records, in order, the phases whose script execution was
reached, so that fail-fast behaviour is observable. -/
def Rebuild (exec : String → Except GoErr String) (inst : Instructions) :
    Except GoErr Unit × List Phase :=
  match exec inst.Source with
  | .error e => (.error (.wrapped "fetching source" e), [.source])
  | .ok _ =>
    match exec inst.Deps with
    | .error e => (.error (.wrapped "configuring build deps" e), [.source, .deps])
    | .ok _ =>
      match exec inst.Build with
      | .error e =>
          (.error (.wrapped "executing build" e), [.source, .deps, .build])
      | .ok _ => (.ok (), [.source, .deps, .build])

/-- C5: the executed phases are always Source, then Deps, then Build; a Source
failure is wrapped "fetching source" and neither Deps nor Build runs; a Deps
failure is wrapped "configuring build deps" and Build does not run; a Build
failure is wrapped "executing build"; and the three wrapped error contexts are
pairwise distinct for every underlying cause. -/
theorem Rebuild_phase_order (exec : String → Except GoErr String)
    (inst : Instructions) :
    (∀ e, exec inst.Source = .error e →
        Rebuild exec inst = (.error (.wrapped "fetching source" e), [Phase.source]) ∧
        Phase.deps ∉ (Rebuild exec inst).2 ∧ Phase.build ∉ (Rebuild exec inst).2) ∧
    (∀ o e, exec inst.Source = .ok o → exec inst.Deps = .error e →
        Rebuild exec inst =
          (.error (.wrapped "configuring build deps" e), [Phase.source, Phase.deps]) ∧
        Phase.build ∉ (Rebuild exec inst).2) ∧
    (∀ o₁ o₂ e, exec inst.Source = .ok o₁ → exec inst.Deps = .ok o₂ →
        exec inst.Build = .error e →
        Rebuild exec inst =
          (.error (.wrapped "executing build" e),
            [Phase.source, Phase.deps, Phase.build])) ∧
    (∀ e : GoErr,
        GoErr.wrapped "fetching source" e ≠ GoErr.wrapped "configuring build deps" e ∧
        GoErr.wrapped "fetching source" e ≠ GoErr.wrapped "executing build" e ∧
        GoErr.wrapped "configuring build deps" e ≠ GoErr.wrapped "executing build" e) := by
  refine ⟨fun e h1 => ?_, fun o e h1 h2 => ?_, fun o₁ o₂ e h1 h2 h3 => ?_, fun e => ?_⟩
  · have hr : Rebuild exec inst =
        (.error (.wrapped "fetching source" e), [Phase.source]) := by
      unfold Rebuild; rw [h1]
    refine ⟨hr, ?_, ?_⟩ <;>
    · rw [hr]
      show _ ∉ [Phase.source]
      decide
  · have hr : Rebuild exec inst =
        (.error (.wrapped "configuring build deps" e), [Phase.source, Phase.deps]) := by
      unfold Rebuild; rw [h1, h2]
    refine ⟨hr, ?_⟩
    rw [hr]
    show _ ∉ [Phase.source, Phase.deps]
    decide
  · unfold Rebuild; rw [h1, h2, h3]
  · refine ⟨fun h => ?_, fun h => ?_, fun h => ?_⟩ <;>
    · injection h with hctx _
      exact absurd hctx (by decide)

/-! ## The comparison entrypoint (`Rebuilder.Compare`) -/

/-- Embedding of `Rebuilder.Compare` (pkg/rebuild/pypi/rebuild.go).  The
summarization of the two assets (`rebuild.Summarize`, an external collaborator)
is injected as its result `summarize`; `rbName` and `upName` stand for the
formatted asset values of the failure message.  On a summarization failure the
error is wrapped "summarizing assets" and no verdict is returned; otherwise the
classifier's pair is propagated, wrapping its hard error if any. -/
def Compare (summarize : Except GoErr (ContentSummary × ContentSummary))
    (rbName upName : String) : Option Verdict × Option GoErr :=
  match summarize with
  | .error e => (none, some (.wrapped "summarizing assets" e))
  | .ok (csRB, csUP) =>
    match compareTwoFiles csRB csUP with
    | (_, some e) =>
        (none, some (.wrapped ("Failed to compare " ++ rbName ++ " to " ++ upName) e))
    | (v, none) => (v, none)

/-- The classifier never produces a hard error: every branch of
`compareTwoFiles` returns `none` in the error position. -/
theorem compareTwoFiles_err_eq_none (csRB csUP : ContentSummary) :
    (compareTwoFiles csRB csUP).2 = none := by
  simp only [compareTwoFiles]
  repeat first
  | rfl
  | split

/-- C6: `Compare` returns a hard error exactly when summarization fails, in
which case the error is wrapped "summarizing assets" and the verdict is nil;
when summarization succeeds the classifier's verdict is returned with a nil
error; and a non-nil verdict is never accompanied by a non-nil error. -/
theorem Compare_error_discipline
    (s : Except GoErr (ContentSummary × ContentSummary)) (rbName upName : String) :
    (∀ e, s = .error e →
        Compare s rbName upName = (none, some (.wrapped "summarizing assets" e))) ∧
    (∀ p, s = .ok p →
        Compare s rbName upName = ((compareTwoFiles p.1 p.2).1, none)) ∧
    ¬((Compare s rbName upName).1.isSome = true ∧
      (Compare s rbName upName).2.isSome = true) := by
  have hok : ∀ csRB csUP, Compare (.ok (csRB, csUP)) rbName upName =
      ((compareTwoFiles csRB csUP).1, none) := by
    intro csRB csUP
    rcases hx : compareTwoFiles csRB csUP with ⟨v, er⟩
    have h2 : er = none := by
      have := compareTwoFiles_err_eq_none csRB csUP
      rw [hx] at this
      exact this
    subst h2
    simp only [Compare]
    rw [hx]
  refine ⟨fun e he => by rw [he]; rfl, fun p hp => by rw [hp]; exact hok p.1 p.2, ?_⟩
  rintro ⟨hv, he⟩
  rcases s with e | ⟨csRB, csUP⟩
  · rw [show Compare (Except.error e) rbName upName =
        (none, some (.wrapped "summarizing assets" e)) from rfl] at hv
    simp at hv
  · rw [hok csRB csUP] at he
    simp at he

/-! ## The batch driver (`RebuildMany`) -/

/-- The spec's Target: one buildable unit of the PyPI ecosystem. -/
structure Target where
  Package : String
  Version : String
  Artifact : String
deriving DecidableEq, Repr

/-- One batch entry of `RebuildMany`: the target to rebuild. -/
structure Input where
  Target : OSSRebuild.Target
deriving DecidableEq, Repr

/-- A release artifact of a PyPI project, identified by its filename. -/
structure PypiArtifact where
  Filename : String
deriving DecidableEq, Repr

/-- A PyPI project as `RebuildMany` consumes it: the artifacts of each
version (`project.Releases[version]`). -/
structure PypiProject where
  Releases : String → List PypiArtifact

/-- Modelled from the spec: `FindPureWheel` (a PyPI registry helper that is
not among the source files) selects from a release's artifact list an
artifact satisfying the pure (none-any) wheel file-type convention, and
reports a not-found error when no artifact matches. -/
def FindPureWheel (arts : List PypiArtifact) : Except GoErr PypiArtifact :=
  match arts.find? (fun a => strHasSuffix a.Filename "-none-any.whl") with
  | some a => .ok a
  | none => .error (.msg "unable to find pure wheel")

/-- The artifact-assignment loop of `RebuildMany`: each input's artifact is
set to its release's pure wheel filename; the first version without one
aborts with the named error `"<version> does not have a none-any wheel"`
(`errors.Errorf` in the Go code). -/
def assignArtifacts (project : PypiProject) : List Input → Except GoErr (List Input)
  | [] => .ok []
  | i :: rest =>
    match FindPureWheel (project.Releases i.Target.Version) with
    | .error _ =>
        .error (.msg (i.Target.Version ++ " does not have a none-any wheel"))
    | .ok a =>
      match assignArtifacts project rest with
      | .error e => .error e
      | .ok rest2 =>
          .ok ({ Target := { i.Target with Artifact := a.Filename } } :: rest2)

/-- Embedding of `RebuildMany` (pkg/rebuild/pypi/rebuild.go).  The registry
lookup `mux.PyPI.Project` is injected as its result `projectResult`, and the
generic `rebuild.RebuildMany` as the function `rebuildAll`.  The boolean
records whether `rebuildAll` was invoked, i.e. whether a rebuild was
attempted. -/
def RebuildMany (rebuildAll : List Input → List String)
    (projectResult : Except GoErr PypiProject) (inputs : List Input) :
    Except GoErr (List String) × Bool :=
  if inputs.length == 0 then (.error (.msg "no inputs provided"), false)
  else
    match projectResult with
    | .error e => (.error e, false)
    | .ok project =>
      match assignArtifacts project inputs with
      | .error e => (.error e, false)
      | .ok inputs2 => (.ok (rebuildAll inputs2), true)

/-- Appending a fixed suffix preserves distinctness of strings, so an error
message built from a version string identifies that version uniquely. -/
theorem append_suffix_ne {v w : String} (suf : String) (h : v ≠ w) :
    v ++ suf ≠ w ++ suf := by
  intro he
  apply h
  apply String.ext
  have hd := congrArg String.data he
  rw [String.data_append, String.data_append] at hd
  exact List.append_cancel_right hd

/-- C7: when every input before position `pre.length` has a pure (none-any)
wheel and the input there does not, `RebuildMany` returns the named error
identifying that input's version and attempts no rebuild; moreover the named
error is distinct for distinct versions. -/
theorem RebuildMany_missing_wheel (rebuildAll : List Input → List String)
    (project : PypiProject) (pre post : List Input) (inp : Input)
    (hpre : ∀ p ∈ pre, (FindPureWheel (project.Releases p.Target.Version)).isOk = true)
    (hinp : (FindPureWheel (project.Releases inp.Target.Version)).isOk = false) :
    RebuildMany rebuildAll (.ok project) (pre ++ inp :: post) =
      (.error (.msg (inp.Target.Version ++ " does not have a none-any wheel")),
        false) ∧
    ∀ v w : String, v ≠ w →
      GoErr.msg (v ++ " does not have a none-any wheel") ≠
        GoErr.msg (w ++ " does not have a none-any wheel") := by
  constructor
  · have hassign : ∀ l : List Input,
        (∀ p ∈ l, (FindPureWheel (project.Releases p.Target.Version)).isOk = true) →
        assignArtifacts project (l ++ inp :: post) =
          .error (.msg (inp.Target.Version ++ " does not have a none-any wheel")) := by
      intro l
      induction l with
      | nil =>
        intro _
        cases hf : FindPureWheel (project.Releases inp.Target.Version) with
        | error e => simp [assignArtifacts, hf]
        | ok a => rw [hf] at hinp; simp [Except.isOk, Except.toBool] at hinp
      | cons p rest ih =>
        intro hall
        have hp := hall p (by simp)
        cases hf : FindPureWheel (project.Releases p.Target.Version) with
        | error e => rw [hf] at hp; simp [Except.isOk, Except.toBool] at hp
        | ok a =>
          have hr := ih (fun q hq => hall q (by simp [hq]))
          simp [assignArtifacts, hf, hr]
    have hne : ((pre ++ inp :: post).length == 0) = false := by
      simp [List.length_append]
    simp [RebuildMany, hne, hassign pre hpre]
  · intro v w hvw he
    injection he with h1
    exact append_suffix_ne _ hvw h1

/-- Witness for C7: the release map has a pure wheel for version 1.0.0 but
none for 2.0.0, so the batch of both versions fails with the named error for
2.0.0 and no rebuild is attempted. -/
theorem RebuildMany_missing_wheel_witness :
    RebuildMany (fun _ => [])
        (.ok ⟨fun v => if v == "1.0.0" then [⟨"pkg-1.0.0-py3-none-any.whl"⟩] else []⟩)
        ([⟨⟨"pkg", "1.0.0", ""⟩⟩] ++ ⟨⟨"pkg", "2.0.0", ""⟩⟩ :: []) =
      (.error (.msg ("2.0.0" ++ " does not have a none-any wheel")), false) ∧
    ∀ v w : String, v ≠ w →
      GoErr.msg (v ++ " does not have a none-any wheel") ≠
        GoErr.msg (w ++ " does not have a none-any wheel") :=
  RebuildMany_missing_wheel (fun _ => [])
    ⟨fun v => if v == "1.0.0" then [⟨"pkg-1.0.0-py3-none-any.whl"⟩] else []⟩
    [⟨⟨"pkg", "1.0.0", ""⟩⟩] [] ⟨⟨"pkg", "2.0.0", ""⟩⟩ (by decide) (by decide)

/-! ## The caching HTTP layer (`internal/http`)

A serialized HTTP response is a byte blob; `resp.Write` and
`http.ReadResponse` of the Go standard library are modelled by the
`encodeResponse` / `decodeResponse` pair below, with bytes as natural
numbers. -/

/-- An HTTP request as `CachedClient.Do` consumes it: the method and the
absolute URL string. -/
structure Request where
  Method : String
  URL : String
deriving DecidableEq, Repr

/-- An HTTP response: numeric status code, status line, header lines, body. -/
structure Response where
  StatusCode : Nat
  Status : String
  Headers : List (List Nat)
  Body : List Nat
deriving DecidableEq, Repr

/-- The bytes of a string. -/
def strToBytes (s : String) : List Nat := s.data.map Char.toNat

/-- A string recovered from bytes. -/
def bytesToStr (l : List Nat) : String := ⟨l.map Char.ofNat⟩

/-- A length-prefixed byte block. -/
def encList (l : List Nat) : List Nat := l.length :: l

/-- Reads one length-prefixed block, returning it with the remaining bytes. -/
def decList : List Nat → Option (List Nat × List Nat)
  | [] => none
  | n :: rest =>
    if n ≤ rest.length then some (rest.take n, rest.drop n) else none

/-- Reads `n` length-prefixed header blocks. -/
def decHeaders : Nat → List Nat → Option (List (List Nat) × List Nat)
  | 0, rest => some ([], rest)
  | n + 1, rest =>
    match decList rest with
    | none => none
    | some (h, rest2) =>
      match decHeaders n rest2 with
      | none => none
      | some (hs, rest3) => some (h :: hs, rest3)

/-- The full serialized response: status line, headers and body (`resp.Write`). -/
def encodeResponse (r : Response) : List Nat :=
  r.StatusCode ::
    (encList (strToBytes r.Status) ++
      (r.Headers.length :: ((r.Headers.map encList).flatten ++ r.Body)))

/-- Parses a serialized response back into a response object
(`http.ReadResponse`). -/
def decodeResponse : List Nat → Option Response
  | [] => none
  | sc :: rest =>
    match decList rest with
    | none => none
    | some (status, rest2) =>
      match rest2 with
      | [] => none
      | hn :: rest3 =>
        match decHeaders hn rest3 with
        | none => none
        | some (hs, body) => some ⟨sc, bytesToStr status, hs, body⟩

theorem bytesToStr_strToBytes (s : String) : bytesToStr (strToBytes s) = s := by
  cases s with
  | mk data =>
    simp only [bytesToStr, strToBytes, List.map_map]
    congr 1
    induction data with
    | nil => rfl
    | cons c t ih => simp [Function.comp, Char.ofNat_toNat, ih]

theorem decList_enc (l rest : List Nat) : decList (encList l ++ rest) = some (l, rest) := by
  have hle : l.length ≤ (l ++ rest).length := by
    simp [List.length_append]
  simp [decList, encList, hle, List.take_left, List.drop_left]

theorem decHeaders_enc (hs : List (List Nat)) (rest : List Nat) :
    decHeaders hs.length ((hs.map encList).flatten ++ rest) = some (hs, rest) := by
  induction hs generalizing rest with
  | nil => simp [decHeaders]
  | cons h t ih =>
    simp [decHeaders, List.append_assoc, decList_enc, ih]

/-- Serialization roundtrip: re-parsing the stored bytes of a response yields
that response. -/
theorem decodeResponse_enc (r : Response) : decodeResponse (encodeResponse r) = some r := by
  obtain ⟨sc, st, hs, body⟩ := r
  simp [encodeResponse, decodeResponse, decList_enc, decHeaders_enc,
    bytesToStr_strToBytes]

/-- Modelled from the spec: the cache collaborator (`internal/cache`, not
among the source files), as an association list from keys to byte blobs. -/
abbrev Cache := List (String × List Nat)

/-- A key's cached value, if present. -/
def Cache.lookup (c : Cache) (k : String) : Option (List Nat) :=
  match c.find? (fun e => e.1 == k) with
  | some e => some e.2
  | none => none

/-- Modelled from the spec: `GetOrSet` returns the cached value when the key
is present, without running `compute`; otherwise it runs `compute` once,
caches a successful result under the key, and caches nothing on failure. -/
def Cache.GetOrSet (c : Cache) (k : String)
    (compute : Unit → Except GoErr (List Nat)) :
    Except GoErr (List Nat) × Cache :=
  match Cache.lookup c k with
  | some v => (.ok v, c)
  | none =>
    match compute () with
    | .error e => (.error e, c)
    | .ok v => (.ok v, (k, v) :: c)

/-- Embedding of `CachedClient.Do` (internal/http): the underlying client is
injected as `underlying`.  GET and HEAD requests go through the cache keyed by
the request URL; on a miss a non-200 underlying status becomes a hard error
carrying the status line and nothing is stored, a 200 response is serialized
in full into the cache; every returned response is re-parsed from the stored
bytes; any other method bypasses the cache entirely. -/
def CachedClient.Do (underlying : Request → Except GoErr Response) (ch : Cache)
    (req : Request) : Except GoErr Response × Cache :=
  if req.Method != "GET" && req.Method != "HEAD" then (underlying req, ch)
  else
    let r := Cache.GetOrSet ch req.URL (fun _ =>
      match underlying req with
      | .error e => .error e
      | .ok resp =>
        if resp.StatusCode != 200 then .error (.msg resp.Status)
        else .ok (encodeResponse resp))
    match r.1 with
    | .error e => (.error e, r.2)
    | .ok bytes =>
      match decodeResponse bytes with
      | some resp => (.ok resp, r.2)
      | none => (.error (.msg "malformed response"), r.2)

/-- C8: a request that is neither GET nor HEAD is forwarded to the underlying
client with the cache untouched; for GET/HEAD, on a cache miss a non-200
underlying response is a hard error and nothing is stored, while a 200
response is stored in full serialized form and returned re-parsed; on a cache
hit the cache is unchanged and the result does not depend on the underlying
client at all. -/
theorem CachedClient_Do_cache_discipline
    (underlying : Request → Except GoErr Response) (ch : Cache) (req : Request) :
    ((req.Method ≠ "GET" ∧ req.Method ≠ "HEAD") →
        CachedClient.Do underlying ch req = (underlying req, ch)) ∧
    ((req.Method = "GET" ∨ req.Method = "HEAD") →
      (Cache.lookup ch req.URL = none →
        (∀ resp, underlying req = .ok resp → resp.StatusCode ≠ 200 →
            CachedClient.Do underlying ch req = (.error (.msg resp.Status), ch)) ∧
        (∀ resp, underlying req = .ok resp → resp.StatusCode = 200 →
            CachedClient.Do underlying ch req =
              (.ok resp, (req.URL, encodeResponse resp) :: ch))) ∧
      (∀ bytes, Cache.lookup ch req.URL = some bytes →
          (CachedClient.Do underlying ch req).2 = ch ∧
          ∀ u₂, CachedClient.Do underlying ch req = CachedClient.Do u₂ ch req)) := by
  constructor
  · intro h
    have hbool : (req.Method != "GET" && req.Method != "HEAD") = true := by
      simp [bne_iff_ne, h.1, h.2]
    simp [CachedClient.Do, hbool]
  · intro h
    have hbool : (req.Method != "GET" && req.Method != "HEAD") = false := by
      rcases h with h | h <;> simp [h]
    refine ⟨fun hmiss => ⟨fun resp hresp hsc => ?_, fun resp hresp hsc => ?_⟩,
      fun bytes hhit => ⟨?_, fun u₂ => ?_⟩⟩
    · have hsc2 : (resp.StatusCode != 200) = true := by simp [bne_iff_ne, hsc]
      simp [CachedClient.Do, hbool, Cache.GetOrSet, hmiss, hresp, hsc2]
    · have hsc2 : (resp.StatusCode != 200) = false := by simp [hsc]
      simp [CachedClient.Do, hbool, Cache.GetOrSet, hmiss, hresp, hsc2,
        decodeResponse_enc]
    · simp only [CachedClient.Do, hbool, Bool.false_eq_true, if_false,
        Cache.GetOrSet, hhit]
      cases decodeResponse bytes <;> rfl
    · simp only [CachedClient.Do, hbool, Bool.false_eq_true, if_false,
        Cache.GetOrSet, hhit]

/-- Witness for C8 at the miss-then-store case: a GET on an empty cache whose
underlying response has status 200 is returned re-parsed and stored in full
under the request URL. -/
theorem CachedClient_Do_cache_discipline_witness :
    CachedClient.Do (fun _ => .ok ⟨200, "200 OK", [], [7]⟩) []
        ⟨"GET", "https://pypi.org/p"⟩ =
      (.ok ⟨200, "200 OK", [], [7]⟩,
        [("https://pypi.org/p", encodeResponse ⟨200, "200 OK", [], [7]⟩)]) :=
  ((CachedClient_Do_cache_discipline (fun _ => .ok ⟨200, "200 OK", [], [7]⟩) []
    ⟨"GET", "https://pypi.org/p"⟩).2 (Or.inl rfl) |>.1 rfl).2
    ⟨200, "200 OK", [], [7]⟩ rfl rfl

/-! ## Single-flight coalescing (`cache.Cache.GetOrSet`) -/

/-- The state of one key of the single-flight cache: either a `compute` is in
flight with the callers blocked on it recorded as waiters, or a value is
stored. -/
inductive Entry where
  | flight (waiters : List Nat)
  | stored (v : List Nat)
deriving DecidableEq, Repr

/-- The observable state of one key: its entry (if any), the results delivered
to callers so far, and how many times `compute` was executed. -/
structure FlightState where
  entry : Option Entry
  results : List (Nat × Except GoErr (List Nat))
  invocations : Nat
deriving Repr

/-- An event at one key: a caller invokes `GetOrSet`, or the in-flight
`compute` finishes with result `r`. -/
inductive Ev where
  | arrive (caller : Nat)
  | finish (r : Except GoErr (List Nat))
deriving Repr

/-- Modelled from the spec: one step of the single-flight cache
(`internal/cache`, not among the source files), as a per-key wait-group.  A
caller arriving at a stored value receives it at once without `compute`; one
arriving while a compute is in flight blocks and joins its waiters rather
than re-invoking `compute`; one arriving at an absent key starts the one
execution of `compute`.  When that execution finishes, every waiter receives
the same result, success or error; a successful value is stored, a failure is
not cached (a later call may retry). -/
def flightStep (s : FlightState) : Ev → FlightState
  | .arrive i =>
    match s.entry with
    | some (.stored v) => { s with results := s.results ++ [(i, .ok v)] }
    | some (.flight ws) => { s with entry := some (.flight (ws ++ [i])) }
    | none =>
      { s with entry := some (.flight [i]), invocations := s.invocations + 1 }
  | .finish r =>
    match s.entry with
    | some (.flight ws) =>
      let entry2 : Option Entry :=
        match r with
        | .ok v => some (.stored v)
        | .error _ => none
      { entry := entry2,
        results := s.results ++ ws.map (fun w => (w, r)),
        invocations := s.invocations }
    | _ => s

/-- Runs a schedule of events against one key. -/
def flightRun (s : FlightState) : List Ev → FlightState
  | [] => s
  | e :: es => flightRun (flightStep s e) es

theorem flightRun_append (s : FlightState) (a b : List Ev) :
    flightRun s (a ++ b) = flightRun (flightRun s a) b := by
  induction a generalizing s with
  | nil => rfl
  | cons e es ih => simp [flightRun, ih]

/-- Callers arriving at an in-flight compute only join its waiters. -/
theorem flightRun_arrive_flight (callers ws : List Nat)
    (res : List (Nat × Except GoErr (List Nat))) (inv : Nat) :
    flightRun ⟨some (.flight ws), res, inv⟩ (callers.map Ev.arrive) =
      ⟨some (.flight (ws ++ callers)), res, inv⟩ := by
  induction callers generalizing ws with
  | nil => simp [flightRun]
  | cons c cs ih =>
    simp [flightRun, flightStep, ih, List.append_assoc]

/-- Callers arriving at a stored value each receive it, with no compute. -/
theorem flightRun_arrive_stored (callers : List Nat) (v : List Nat)
    (res : List (Nat × Except GoErr (List Nat))) (inv : Nat) :
    flightRun ⟨some (.stored v), res, inv⟩ (callers.map Ev.arrive) =
      ⟨some (.stored v), res ++ callers.map (fun i => (i, Except.ok v)), inv⟩ := by
  induction callers generalizing res with
  | nil => simp [flightRun]
  | cons c cs ih =>
    simp [flightRun, flightStep, ih]

/-- C9: when the callers invoke `GetOrSet` concurrently on an uncached key —
every call overlaps the single flight, i.e. all arrivals precede the compute
finishing with result `r` — `compute` is executed exactly once and every
caller receives that same result `r`, whether it is a success or an error;
when the key is already cached with `v`, every caller receives the cached
value and `compute` is never executed. -/
theorem GetOrSet_single_flight (callers : List Nat)
    (r : Except GoErr (List Nat)) (v : List Nat) (hne : callers ≠ []) :
    ((flightRun ⟨none, [], 0⟩
        (callers.map Ev.arrive ++ [Ev.finish r])).invocations = 1 ∧
      (flightRun ⟨none, [], 0⟩
        (callers.map Ev.arrive ++ [Ev.finish r])).results =
        callers.map (fun i => (i, r))) ∧
    ((flightRun ⟨some (.stored v), [], 0⟩
        (callers.map Ev.arrive)).invocations = 0 ∧
      (flightRun ⟨some (.stored v), [], 0⟩
        (callers.map Ev.arrive)).results =
        callers.map (fun i => (i, Except.ok v))) := by
  constructor
  · match callers, hne with
    | c :: cs, _ =>
      have h1 : flightRun ⟨none, [], 0⟩ ((c :: cs).map Ev.arrive) =
          ⟨some (.flight (c :: cs)), [], 1⟩ := by
        have h2 := flightRun_arrive_flight cs [c] [] 1
        simpa [flightRun, flightStep] using h2
      rw [flightRun_append, h1]
      constructor <;> cases r <;> simp [flightRun, flightStep]
  · have h := flightRun_arrive_stored callers v [] 0
    rw [h]
    exact ⟨rfl, by simp⟩

/-- Witness for C9 at a failing compute: three callers join one flight, the
single execution fails, and all three receive that same error; a key cached
with `[7]` serves all three callers with zero executions. -/
theorem GetOrSet_single_flight_witness :
    ((flightRun ⟨none, [], 0⟩
        ([1, 2, 3].map Ev.arrive ++
          [Ev.finish (.error (.msg "boom"))])).invocations = 1 ∧
      (flightRun ⟨none, [], 0⟩
        ([1, 2, 3].map Ev.arrive ++
          [Ev.finish (.error (.msg "boom"))])).results =
        [1, 2, 3].map (fun i => (i, Except.error (GoErr.msg "boom")))) ∧
    ((flightRun ⟨some (.stored [7]), [], 0⟩
        ([1, 2, 3].map Ev.arrive)).invocations = 0 ∧
      (flightRun ⟨some (.stored [7]), [], 0⟩
        ([1, 2, 3].map Ev.arrive)).results =
        [1, 2, 3].map (fun i => (i, Except.ok [7]))) :=
  GetOrSet_single_flight [1, 2, 3] (.error (.msg "boom")) [7] (by decide)

/-! ## The remote delegate (`RebuildRemote`) -/

/-- Options of a remote rebuild: the time-warp flag, with the remaining fields
of `rebuild.RemoteOptions` (an external collaborator's type) abstracted into
`Rest`. -/
structure RemoteOptions where
  UseTimewarp : Bool
  Rest : List (String × String)
deriving DecidableEq, Repr

/-- Embedding of the PyPI `RebuildRemote` (pkg/rebuild/pypi/rebuild.go): set
`opts.UseTimewarp = true`, then delegate to the generic
`rebuild.RebuildRemote`, injected as `inner`. -/
def RebuildRemote (inner : Input → String → RemoteOptions → Except GoErr Unit)
    (input : Input) (id : String) (opts : RemoteOptions) : Except GoErr Unit :=
  inner input id { opts with UseTimewarp := true }

/-- C10: the PyPI `RebuildRemote` always delegates with `UseTimewarp` forced
to `true` and every other option field passed through unchanged, so the
caller-supplied `UseTimewarp` value is irrelevant to the result. -/
theorem RebuildRemote_forces_timewarp
    (inner : Input → String → RemoteOptions → Except GoErr Unit)
    (input : Input) (id : String) (opts : RemoteOptions) :
    RebuildRemote inner input id opts = inner input id ⟨true, opts.Rest⟩ ∧
    ∀ b : Bool, RebuildRemote inner input id { opts with UseTimewarp := b } =
      RebuildRemote inner input id opts := by
  exact ⟨rfl, fun b => rfl⟩

end OSSRebuild
